import Mathlib

/-! Verification of the messenger application's real-time coordinator.

This file shallowly embeds the data model (`models.py`) and the
operations of `app.py` (the DM gate, the coin ledger, the voice-room
role machinery and the message-history endpoint) as executable Lean
definitions, and proves the spec's claims about them.

Modelling conventions:
* timestamps are natural numbers (`datetime.min` is `0`);
* the database is a record of row lists plus a balance map;
* SQLAlchemy `.first()` is `List.find?`, `.delete()` on a filtered
  query removes every matching row, an attribute assignment on the
  object returned by `.first()` updates the first matching row;
* Socket.IO `emit` calls are collected into a result list of `Event`s,
  each carrying the destination room string (`str(user_id)`,
  `"voice_" + str(room_id)`, a named chat room, or `"lobby"`);
* Python truthiness of optional ids / strings (`if recipient_id:`,
  `if room:`) is made explicit via `truthyNat` / `truthyStr`.
-/

/-- The voice-room speakers cap, `MAX_STAGE = 10` (app.py line 17). -/
def MAX_STAGE : Nat := 10

/-- The free-message limit, `DM_FREE_MSG_LIMIT = 3` (app.py line 18). -/
def DM_FREE_MSG_LIMIT : Nat := 3

/-- A row of the `messages` table. -/
structure Msg where
  id : Nat
  body : String
  created_at : Nat
  sender_id : Nat
  recipient_id : Option Nat
  room : Option String
  deriving Repr, DecidableEq

/-- A row of the `dm_unlocks` table. `expires_at = none` models SQL NULL. -/
structure DMUnlockRow where
  user_id : Nat
  target_id : Nat
  expires_at : Option Nat
  deriving Repr, DecidableEq

/-- A row of the `voice_participants` table. -/
structure VoiceParticipantRow where
  room_id : Nat
  user_id : Nat
  role : String
  deriving Repr, DecidableEq

/-- A row of the `coin_transactions` table. -/
structure CoinTxRow where
  from_id : Nat
  to_id : Nat
  amount : Int
  note : String
  deriving Repr, DecidableEq

/-- A row of the `voice_rooms` table. -/
structure VoiceRoomRow where
  id : Nat
  name : String
  created_by : Nat
  deriving Repr, DecidableEq

/-- The database state: existing user ids, coin balances, and the row
lists of the tables the verified operations touch. -/
structure DB where
  users : List Nat
  coins : Nat → Int
  messages : List Msg
  unlocks : List DMUnlockRow
  participants : List VoiceParticipantRow
  coinTxs : List CoinTxRow
  rooms : List VoiceRoomRow

/-- An outbound Socket.IO event; the final `String` is the destination
room passed to `emit` (`room=` / `to=`). -/
inductive Event where
  | blocked_message (reason : String) (dest : String)
  | new_message (msgId : Nat) (dest : String)
  | coins_update (user_id : Nat) (coins : Int) (dest : String)
  | voice_stage_full (dest : String)
  | voice_stage_granted (user_id : Nat) (dest : String)
  | voice_stage_denied (user_id : Nat) (dest : String)
  | voice_user_joined (user_id : Nat) (role : String) (dest : String)
  | voice_user_left (user_id : Nat) (dest : String)
  deriving Repr, DecidableEq

/-- Python truthiness of an optional integer (`None` and `0` are falsy). -/
def truthyNat : Option Nat → Bool
  | some n => n != 0
  | none => false

/-- Python truthiness of an optional string (`None` and `""` are falsy). -/
def truthyStr : Option String → Bool
  | some s => s != ""
  | none => false

/-- The Socket.IO room string of a user, `str(user_id)`. -/
def userDest (uid : Nat) : String := toString uid

/-- The Socket.IO room string of a voice room, `f"voice_\x7broom_id\x7d"`. -/
def voiceDest (room_id : Nat) : String := "voice_" ++ toString room_id

/-- The `DMUnlock.query.filter_by(user_id=.., target_id=..)` predicate. -/
def uMatch (user_id target_id : Nat) (u : DMUnlockRow) : Bool :=
  u.user_id == user_id && u.target_id == target_id

/-- The `VoiceParticipant.query.filter_by(room_id=.., user_id=..)` predicate. -/
def vpMatch (room_id user_id : Nat) (p : VoiceParticipantRow) : Bool :=
  p.room_id == room_id && p.user_id == user_id

/-- Activity of an unlock row, the test
`unlock and (not unlock.expires_at or unlock.expires_at > datetime.utcnow())`
(app.py line 224): an unlock is active when its expiry is NULL or
strictly in the future. -/
def unlockActive (now : Nat) (u : DMUnlockRow) : Bool :=
  match u.expires_at with
  | none => true
  | some e => now < e

/-- The `since` value in `dm_allowed` (app.py lines 227-231): the timestamp of the
most recent message from `recipient` to `sender`, or the minimum
timestamp (`datetime.min`, here `0`) if none exists. -/
def lastReplyTime (db : DB) (sender recipient : Nat) : Nat :=
  ((db.messages.filter
      (fun m => m.sender_id == recipient && m.recipient_id == some sender)).map
    (fun m => m.created_at)).foldr max 0

/-- The count in `dm_allowed` (app.py lines 233-237): messages from
`sender` to `recipient` with timestamp strictly after `since`. -/
def dmSentCount (db : DB) (sender recipient : Nat) : Nat :=
  (db.messages.filter (fun m =>
      m.sender_id == sender && m.recipient_id == some recipient &&
      lastReplyTime db sender recipient < m.created_at)).length

/-- The helper `dm_allowed(sender_id, recipient_id)` (app.py lines 220-238). -/
def dm_allowed (now : Nat) (db : DB) (sender recipient : Nat) : Bool :=
  match db.unlocks.find? (uMatch sender recipient) with
  | some u =>
      if unlockActive now u then true
      else dmSentCount db sender recipient < DM_FREE_MSG_LIMIT
  | none => dmSentCount db sender recipient < DM_FREE_MSG_LIMIT

/-- Python's `str.strip()`: drop leading and trailing whitespace. -/
def pyStrip (s : String) : String :=
  String.mk
    (((s.data.dropWhile Char.isWhitespace).reverse.dropWhile
        Char.isWhitespace).reverse)

/-- The `send_message` handler (app.py lines 361-433), after the sender
identity has been resolved: blank body is dropped, the DM gate emits a
single `blocked_message` to the sender's room, otherwise the message is
persisted and `new_message` is fanned out. -/
def sio_send_message (now : Nat) (db : DB) (sender_id : Nat)
    (body : String) (recipient_id : Option Nat) (room : Option String) :
    DB × List Event :=
  let b := pyStrip body
  if b == "" then (db, [])
  else if truthyNat recipient_id &&
          !(dm_allowed now db sender_id (recipient_id.getD 0)) then
    (db, [Event.blocked_message
            "You must receive a response or send coins to unlock."
            (userDest sender_id)])
  else
    let msg : Msg := { id := db.messages.length + 1, body := b,
                       created_at := now, sender_id := sender_id,
                       recipient_id := recipient_id, room := room }
    let db2 := { db with messages := db.messages ++ [msg] }
    let evs :=
      if truthyStr room then
        [Event.new_message msg.id (room.getD "")]
      else if truthyNat recipient_id then
        [Event.new_message msg.id (userDest (recipient_id.getD 0)),
         Event.new_message msg.id (userDest sender_id)]
      else
        [Event.new_message msg.id "lobby"]
    (db2, evs)

/-- Thirty days, `timedelta(days=30)`, in seconds. -/
def thirtyDays : Nat := 30 * 24 * 60 * 60

/-- Attribute assignment `unlock.expires_at = ...` on the row returned by
`.first()`: refresh the expiry of the first matching unlock row in place. -/
def refreshFirst (now payer payee : Nat) :
    List DMUnlockRow → List DMUnlockRow
  | [] => []
  | u :: us =>
      if uMatch payer payee u then
        { u with expires_at := some (now + thirtyDays) } :: us
      else u :: refreshFirst now payer payee us

/-- The unlock upsert of `send_coins` (app.py lines 470-478): create a
fresh row with expiry `now + 30 days` if none matches, else refresh the
first matching row in place. -/
def upsertUnlock (now : Nat) (l : List DMUnlockRow) (payer payee : Nat) :
    List DMUnlockRow :=
  if (l.find? (uMatch payer payee)).isSome then
    refreshFirst now payer payee l
  else
    l ++ [{ user_id := payer, target_id := payee,
            expires_at := some (now + thirtyDays) }]

/-- The `send_coins` handler (app.py lines 441-489): non-positive amounts
are silently dropped, insufficient funds and unknown recipients emit one
`blocked_message` to the sender, and a successful transfer debits the
payer, credits the payee, appends a `CoinTransaction`, upserts the
unlock, and pushes both balances. Sequential balance updates reproduce
the ORM aliasing when payer = payee. -/
def sio_send_coins (now : Nat) (db : DB) (payer to_id : Nat)
    (amount : Int) : DB × List Event :=
  if amount ≤ 0 then (db, [])
  else if db.coins payer < amount then
    (db, [Event.blocked_message "Not enough coins." (userDest payer)])
  else if !(db.users.contains to_id) then
    (db, [Event.blocked_message "User not found." (userDest payer)])
  else
    let c1 : Nat → Int :=
      fun u => if u = payer then db.coins u - amount else db.coins u
    let c2 : Nat → Int :=
      fun u => if u = to_id then c1 u + amount else c1 u
    let tx : CoinTxRow :=
      { from_id := payer, to_id := to_id, amount := amount, note := "gift" }
    let db2 := { db with coins := c2,
                         coinTxs := db.coinTxs ++ [tx],
                         unlocks := upsertUnlock now db.unlocks payer to_id }
    (db2, [Event.coins_update payer (c2 payer) (userDest payer),
           Event.coins_update to_id (c2 to_id) (userDest to_id)])

/-- The `voice_join` handler (app.py lines 499-521): create a listener
row only when the (room, user) pair has none, then notify the room. -/
def sio_voice_join (db : DB) (user_id room_id : Nat) : DB × List Event :=
  match db.participants.find? (vpMatch room_id user_id) with
  | some vp =>
      (db, [Event.voice_user_joined user_id vp.role (voiceDest room_id)])
  | none =>
      let vp : VoiceParticipantRow :=
        { room_id := room_id, user_id := user_id, role := "listener" }
      ({ db with participants := db.participants ++ [vp] },
       [Event.voice_user_joined user_id "listener" (voiceDest room_id)])

/-- The `voice_leave` handler (app.py lines 523-536): delete every
participant row of the (room, user) pair and notify the room. -/
def sio_voice_leave (db : DB) (user_id room_id : Nat) : DB × List Event :=
  ({ db with participants :=
       db.participants.filter (fun p => !(vpMatch room_id user_id p)) },
   [Event.voice_user_left user_id (voiceDest room_id)])

/-- Update the role of the first row matching `(room_id, user_id)`, the
effect of `vp.role = "speaker"` on the row returned by `.first()`; the
list is unchanged when no row matches (`if vp:` guard). -/
def setRoleFirst (room_id user_id : Nat) (role : String) :
    List VoiceParticipantRow → List VoiceParticipantRow
  | [] => []
  | p :: ps =>
      if vpMatch room_id user_id p then { p with role := role } :: ps
      else p :: setRoleFirst room_id user_id role ps

/-- The count `VoiceParticipant.query.filter_by(room_id=.., role="speaker").count()`. -/
def speakerCount (db : DB) (room_id : Nat) : Nat :=
  (db.participants.filter
    (fun p => p.room_id == room_id && p.role == "speaker")).length

/-- The `voice_stage_decision` handler (app.py lines 549-573): on accept,
emit `voice_stage_full` to the target when the speaker count has reached
`MAX_STAGE`; otherwise promote the target's row (if any) to speaker and
emit `voice_stage_granted` to the room; on reject, notify the target. -/
def sio_voice_stage_decision (db : DB) (room_id target_id : Nat)
    (accept : Bool) : DB × List Event :=
  if accept then
    if MAX_STAGE ≤ speakerCount db room_id then
      (db, [Event.voice_stage_full (userDest target_id)])
    else
      ({ db with participants :=
           setRoleFirst room_id target_id "speaker" db.participants },
       [Event.voice_stage_granted target_id (voiceDest room_id)])
  else
    (db, [Event.voice_stage_denied target_id (userDest target_id)])

/-- The route `/api/rooms/create` (app.py lines 159-172): normalise the name
(falsy or blank-after-trim falls back to `"Room"`), insert the room,
then insert a host participant row for the creator. New room ids are
modelled as `db.rooms.length + 1`. -/
def api_create_room (db : DB) (creator : Nat) (name : Option String) :
    DB × Nat :=
  let n0 := match name with
            | some s => if s == "" then "Room" else s
            | none => "Room"
  let nm := if pyStrip n0 == "" then "Room" else pyStrip n0
  let rid := db.rooms.length + 1
  let room : VoiceRoomRow := { id := rid, name := nm, created_by := creator }
  let vp : VoiceParticipantRow :=
    { room_id := rid, user_id := creator, role := "host" }
  ({ db with rooms := db.rooms ++ [room],
             participants := db.participants ++ [vp] }, rid)

/-- Comparison by creation time, the `order_by(Message.created_at.asc())`
ordering. -/
def msgLe (a b : Msg) : Prop := a.created_at ≤ b.created_at

instance : DecidableRel msgLe := fun a b => Nat.decLe a.created_at b.created_at

instance : IsTotal Msg msgLe := ⟨fun a b => Nat.le_total a.created_at b.created_at⟩

instance : IsTrans Msg msgLe := ⟨fun _ _ _ h h2 => Nat.le_trans h h2⟩

/-- The filter `Message.query.filter_by(room=room)` for a room-history fetch. -/
def roomFilter (db : DB) (r : String) : List Msg :=
  db.messages.filter (fun m => m.room == some r)

/-- The private-chat filter of `/api/messages` (app.py lines 186-189). -/
def dmFilter (db : DB) (me rid : Nat) : List Msg :=
  db.messages.filter (fun m =>
    (m.sender_id == me && m.recipient_id == some rid) ||
    (m.sender_id == rid && m.recipient_id == some me))

/-- The route `/api/messages` (app.py lines 174-206): filter by room if truthy,
else by recipient if truthy, else error; order ascending by creation
time and cap at 100. -/
def api_messages (db : DB) (me : Nat) (room : Option String)
    (recipient_id : Option Nat) : Except String (List Msg) :=
  if truthyStr room then
    Except.ok ((List.insertionSort msgLe (roomFilter db (room.getD ""))).take 100)
  else if truthyNat recipient_id then
    Except.ok
      ((List.insertionSort msgLe (dmFilter db me (recipient_id.getD 0))).take 100)
  else
    Except.error "room or recipient_id required"

/-- The unlock rows of a given (granter, target) pair. -/
def pairUnlocks (l : List DMUnlockRow) (payer payee : Nat) :
    List DMUnlockRow :=
  l.filter (uMatch payer payee)

/-! Helper lemmas -/

/-- A list of length at most one has at most one member. -/
theorem eq_of_mem_of_length_le_one {α : Type _} {l : List α}
    (h : l.length ≤ 1) {a b : α} (ha : a ∈ l) (hb : b ∈ l) : a = b := by
  cases l with
  | nil => cases ha
  | cons x xs =>
      have hxs : xs = [] := by
        have : xs.length = 0 := by simpa using h
        exact List.eq_nil_of_length_eq_zero this
      subst hxs
      simp at ha hb
      rw [ha, hb]

/-- The update `setRoleFirst` is the identity when no row matches. -/
theorem setRoleFirst_id (room_id user_id : Nat) (role : String) :
    ∀ l : List VoiceParticipantRow,
      (∀ p ∈ l, vpMatch room_id user_id p = false) →
      setRoleFirst room_id user_id role l = l
  | [], _ => rfl
  | p :: ps, h => by
      have hp : vpMatch room_id user_id p = false := h p (List.mem_cons_self p ps)
      unfold setRoleFirst
      rw [if_neg (by simp [hp])]
      rw [setRoleFirst_id room_id user_id role ps
            (fun q hq => h q (List.mem_cons_of_mem p hq))]

/-- When some row matches, `setRoleFirst` yields a matching row with the
new role. -/
theorem setRoleFirst_mem (room_id user_id : Nat) (role : String) :
    ∀ l : List VoiceParticipantRow,
      (∃ p ∈ l, vpMatch room_id user_id p = true) →
      ∃ p ∈ setRoleFirst room_id user_id role l,
        p.room_id = room_id ∧ p.user_id = user_id ∧ p.role = role := by
  intro l
  induction l with
  | nil => rintro ⟨p, hp, _⟩; cases hp
  | cons x xs ih =>
      rintro ⟨p, hp, hm⟩
      by_cases hx : vpMatch room_id user_id x = true
      · refine ⟨{ x with role := role }, ?_, ?_, ?_, rfl⟩
        · unfold setRoleFirst
          rw [if_pos hx]
          exact List.mem_cons_self _ _
        · have := hx
          unfold vpMatch at this
          simp at this
          exact this.1
        · have := hx
          unfold vpMatch at this
          simp at this
          exact this.2
      · have hpxs : p ∈ xs := by
          cases hp with
          | head => exact absurd hm hx
          | tail _ h => exact h
        obtain ⟨q, hq, hq2⟩ := ih ⟨p, hpxs, hm⟩
        refine ⟨q, ?_, hq2⟩
        unfold setRoleFirst
        rw [if_neg hx]
        exact List.mem_cons_of_mem x hq

/-- Under the at-most-one-active-row invariant, `dm_allowed` reduces to
the free-message count check whenever every matching unlock is inactive. -/
theorem dm_allowed_no_active (now : Nat) (db : DB) (s r : Nat)
    (h : ∀ u ∈ db.unlocks, uMatch s r u = true → unlockActive now u = false) :
    dm_allowed now db s r
      = decide (dmSentCount db s r < DM_FREE_MSG_LIMIT) := by
  unfold dm_allowed
  cases hf : db.unlocks.find? (uMatch s r) with
  | none => rfl
  | some u =>
      have hm := List.mem_of_find?_eq_some hf
      have hp := List.find?_some hf
      show (if unlockActive now u = true then true
            else decide (dmSentCount db s r < DM_FREE_MSG_LIMIT))
          = decide (dmSentCount db s r < DM_FREE_MSG_LIMIT)
      rw [h u hm hp]
      simp

/-! Claim C3: insufficient funds -/

/-- C3: a transfer of a positive amount strictly greater than the
payer's balance fails with the insufficient-funds rejection
(`blocked_message "Not enough coins."` to the payer) and leaves the whole
database unchanged: both balances, the `CoinTransaction` list and the
`DMUnlock` list are those of the input state. -/
theorem transfer_insufficient_funds (now : Nat) (db : DB)
    (payer to_id : Nat) (amount : Int)
    (hpos : 0 < amount) (hins : db.coins payer < amount) :
    sio_send_coins now db payer to_id amount
      = (db, [Event.blocked_message "Not enough coins." (userDest payer)]) := by
  unfold sio_send_coins
  rw [if_neg (not_le.mpr hpos), if_pos hins]

/-- A concrete state where payer 1 holds only 5 coins. -/
def dbPoor : DB :=
  { users := [1, 2], coins := fun _ => 5, messages := [], unlocks := [],
    participants := [], coinTxs := [], rooms := [] }

/-- Witness for C3 at a concrete state: payer 1 holds 5 coins and tries
to send 6; the state is returned unchanged with the single rejection. -/
theorem transfer_insufficient_funds_witness :
    (0 : Int) < 6 ∧ dbPoor.coins 1 < 6 ∧
      sio_send_coins 0 dbPoor 1 2 6
        = (dbPoor, [Event.blocked_message "Not enough coins." (userDest 1)]) :=
  ⟨by decide, by decide,
   transfer_insufficient_funds 0 dbPoor 1 2 6 (by decide) (by decide)⟩

/-! Claim C8: non-positive amount -/

/-- A concrete state used by counterexamples and witnesses below. -/
def dbEx : DB :=
  { users := [1, 2], coins := fun _ => 1000, messages := [], unlocks := [],
    participants := [], coinTxs := [], rooms := [] }

/-- C8 counterexample: a transfer of amount `0` is dropped with *no*
event at all — the rejection does not produce exactly one explanatory
event back to the sender, contradicting the claim. -/
theorem transfer_nonpositive_counterexample :
    sio_send_coins 0 dbEx 1 2 0 = (dbEx, [])
    ∧ (sio_send_coins 0 dbEx 1 2 0).2.length ≠ 1 := by
  constructor
  · rfl
  · decide

/-- C8 amended: a transfer with amount ≤ 0 is silently dropped:
no event is emitted, no balance changes, no transaction is appended and
no unlock is granted (the state is returned untouched). -/
theorem transfer_nonpositive_dropped (now : Nat) (db : DB)
    (payer to_id : Nat) (amount : Int) (h : amount ≤ 0) :
    sio_send_coins now db payer to_id amount = (db, []) := by
  unfold sio_send_coins
  rw [if_pos h]

/-- Witness for the amended C8 at amount `-5`. -/
theorem transfer_nonpositive_dropped_witness :
    (-5 : Int) ≤ 0 ∧ sio_send_coins 3 dbEx 1 2 (-5) = (dbEx, []) :=
  ⟨by decide, transfer_nonpositive_dropped 3 dbEx 1 2 (-5) (by decide)⟩

/-! Claim C6: leave then rejoin resets the role -/

/-- C6: the handler `voice_leave` deletes every participant row of the
(room, user) pair regardless of its prior role, and a subsequent
`voice_join` yields exactly one participant row for the pair, with role
`"listener"`: an elevated role is not preserved across leave-then-rejoin. -/
theorem voice_leave_rejoin (db : DB) (user room_id : Nat) :
    ((sio_voice_leave db user room_id).1.participants.filter
        (vpMatch room_id user) = [])
    ∧ ((sio_voice_join (sio_voice_leave db user room_id).1 user
          room_id).1.participants.filter (vpMatch room_id user)
        = [{ room_id := room_id, user_id := user, role := "listener" }]) := by
  have h1 : (sio_voice_leave db user room_id).1.participants.filter
      (vpMatch room_id user) = [] := by
    rw [List.filter_eq_nil_iff]
    intro a ha
    have hmem := List.mem_filter.mp ha
    simpa using hmem.2
  refine ⟨h1, ?_⟩
  have h2 : (sio_voice_leave db user room_id).1.participants.find?
      (vpMatch room_id user) = none := by
    rw [List.find?_eq_none]
    intro a ha
    have hmem := List.mem_filter.mp ha
    simpa using hmem.2
  unfold sio_voice_join
  rw [h2]
  simp only [List.filter_append, h1, List.nil_append]
  simp [vpMatch]

/-! Claim C10: granting stage to an absent target -/

/-- C10: when the speaker count is below the cap and the target has
no participant row in the room, `voice_stage_decision(accept)` still
emits `voice_stage_granted` for the target to the room while creating no
participant row and changing no state at all. -/
theorem stage_grant_absent_target (db : DB) (room_id target : Nat)
    (hcap : speakerCount db room_id < MAX_STAGE)
    (habs : ∀ p ∈ db.participants, vpMatch room_id target p = false) :
    sio_voice_stage_decision db room_id target true
      = (db, [Event.voice_stage_granted target (voiceDest room_id)]) := by
  have hid := setRoleFirst_id room_id target "speaker" db.participants habs
  unfold sio_voice_stage_decision
  rw [if_pos rfl, if_neg (Nat.not_le.mpr hcap), hid]

/-- A concrete state for the C10 witness: room 1 has a single listener
row for user 7; user 9 has no row. -/
def dbAbsent : DB :=
  { users := [7, 9], coins := fun _ => 1000, messages := [], unlocks := [],
    participants := [{ room_id := 1, user_id := 7, role := "listener" }],
    coinTxs := [], rooms := [{ id := 1, name := "R", created_by := 7 }] }

/-- Witness for C10: accepting user 9 (who never joined room 1) emits the
grant but leaves the state untouched. -/
theorem stage_grant_absent_target_witness :
    speakerCount dbAbsent 1 < MAX_STAGE ∧
      sio_voice_stage_decision dbAbsent 1 9 true
        = (dbAbsent, [Event.voice_stage_granted 9 (voiceDest 1)]) :=
  ⟨by decide,
   stage_grant_absent_target dbAbsent 1 9 (by decide) (by decide)⟩

/-! Claim C1: the free-message gate -/

/-- C1: for a (sender, recipient) pair with no active unlock (every
matching unlock row is inactive), the DM gate allows a direct message iff
the count of messages from sender to recipient strictly after the
recipient's last reply (or the minimum timestamp `0` with no reply) is
below `DM_FREE_MSG_LIMIT = 3`; and when that count equals 3, a send with
a non-blank body emits exactly one `blocked_message` with the
unlock-reason string to the sender's own room and persists nothing. -/
theorem dm_gate_free_limit (now : Nat) (db : DB) (s r : Nat)
    (hr : r ≠ 0)
    (hno : ∀ u ∈ db.unlocks, uMatch s r u = true → unlockActive now u = false)
    (body : String) (room : Option String) (hbody : pyStrip body ≠ "") :
    (dm_allowed now db s r = true ↔ dmSentCount db s r < DM_FREE_MSG_LIMIT)
    ∧ (dmSentCount db s r = DM_FREE_MSG_LIMIT →
        sio_send_message now db s body (some r) room
          = (db, [Event.blocked_message
                    "You must receive a response or send coins to unlock."
                    (userDest s)])) := by
  have key := dm_allowed_no_active now db s r hno
  constructor
  · rw [key]
    exact decide_eq_true_iff
  · intro hc
    have hfalse : dm_allowed now db s r = false := by
      rw [key, hc]
      simp
    unfold sio_send_message
    rw [if_neg (by simpa using hbody)]
    rw [if_pos (by simp [truthyNat, hr, Option.getD, hfalse])]

/-- A concrete state for the C1 witness: user 1 has sent user 2 three
messages and received no reply; no unlock exists. -/
def dbLimit : DB :=
  { users := [1, 2], coins := fun _ => 1000,
    messages :=
      [{ id := 1, body := "a", created_at := 1, sender_id := 1,
         recipient_id := some 2, room := none },
       { id := 2, body := "b", created_at := 2, sender_id := 1,
         recipient_id := some 2, room := none },
       { id := 3, body := "c", created_at := 3, sender_id := 1,
         recipient_id := some 2, room := none }],
    unlocks := [], participants := [], coinTxs := [], rooms := [] }

/-- Witness for C1: with three unanswered messages, the fourth direct
message from 1 to 2 is blocked with the unlock-reason string and the
state is unchanged. -/
theorem dm_gate_free_limit_witness :
    dmSentCount dbLimit 1 2 = DM_FREE_MSG_LIMIT ∧
      sio_send_message 9 dbLimit 1 "hey" (some 2) none
        = (dbLimit,
           [Event.blocked_message
              "You must receive a response or send coins to unlock."
              (userDest 1)]) :=
  ⟨by decide,
   (dm_gate_free_limit 9 dbLimit 1 2 (by decide) (by decide) "hey" none
       (by decide)).2 (by decide)⟩

/-! Claim C5: the unlock short-circuit -/

/-- C5: under the at-most-one-row-per-pair invariant, the DM gate's
unlock check short-circuits to allowed exactly when a matching unlock
row is active (expiry NULL or strictly in the future); when every
matching row is inactive — in particular when an unlock has expired —
the gate falls through to the free-message count check. -/
theorem dm_unlock_short_circuit (now : Nat) (db : DB) (s r : Nat)
    (hone : (pairUnlocks db.unlocks s r).length ≤ 1) :
    ((∃ u ∈ db.unlocks, uMatch s r u = true ∧ unlockActive now u = true) →
        dm_allowed now db s r = true)
    ∧ ((∀ u ∈ db.unlocks, uMatch s r u = true → unlockActive now u = false) →
        dm_allowed now db s r
          = decide (dmSentCount db s r < DM_FREE_MSG_LIMIT)) := by
  constructor
  · rintro ⟨u, hu, hm, ha⟩
    have hsome : (db.unlocks.find? (uMatch s r)).isSome := by
      rw [List.find?_isSome]
      exact ⟨u, hu, hm⟩
    cases hf : db.unlocks.find? (uMatch s r) with
    | none => simp [hf] at hsome
    | some u0 =>
        have hm0 := List.mem_of_find?_eq_some hf
        have hp0 := List.find?_some hf
        have hu0f : u0 ∈ pairUnlocks db.unlocks s r :=
          List.mem_filter.mpr ⟨hm0, hp0⟩
        have huf : u ∈ pairUnlocks db.unlocks s r :=
          List.mem_filter.mpr ⟨hu, hm⟩
        have heq : u0 = u := eq_of_mem_of_length_le_one hone hu0f huf
        have ha0 : unlockActive now u0 = true := by rw [heq]; exact ha
        unfold dm_allowed
        rw [hf]
        show (if unlockActive now u0 = true then true
              else decide (dmSentCount db s r < DM_FREE_MSG_LIMIT)) = true
        rw [if_pos ha0]
  · exact dm_allowed_no_active now db s r

/-- A concrete state with a never-expiring unlock from 1 to 2. -/
def dbActive : DB :=
  { users := [1, 2], coins := fun _ => 1000, messages := [],
    unlocks := [{ user_id := 1, target_id := 2, expires_at := none }],
    participants := [], coinTxs := [], rooms := [] }

/-- A concrete state whose only unlock from 1 to 2 expired at time 3. -/
def dbExpired : DB :=
  { users := [1, 2], coins := fun _ => 1000, messages := [],
    unlocks := [{ user_id := 1, target_id := 2, expires_at := some 3 }],
    participants := [], coinTxs := [], rooms := [] }

/-- Witness for C5: the NULL-expiry unlock short-circuits to allowed at
time 5; the unlock expired at time 3 falls through to the count check. -/
theorem dm_unlock_short_circuit_witness :
    (pairUnlocks dbActive.unlocks 1 2).length ≤ 1 ∧
      dm_allowed 5 dbActive 1 2 = true ∧
      dm_allowed 5 dbExpired 1 2
        = decide (dmSentCount dbExpired 1 2 < DM_FREE_MSG_LIMIT) :=
  ⟨by decide,
   (dm_unlock_short_circuit 5 dbActive 1 2 (by decide)).1 (by decide),
   (dm_unlock_short_circuit 5 dbExpired 1 2 (by decide)).2 (by decide)⟩

/-! Claim C2: stage capacity -/

/-- C2: on `voice_stage_decision(accept)`: when the room already has
at least `MAX_STAGE = 10` speakers, the handler emits `voice_stage_full`
to the target and returns the state unchanged (every participant keeps
its role); when the count is below the cap and the target has a
participant row, that row's role becomes `"speaker"` and the room is
notified with `voice_stage_granted`. -/
theorem stage_decision_cap (db : DB) (room_id target : Nat) :
    (MAX_STAGE ≤ speakerCount db room_id →
       sio_voice_stage_decision db room_id target true
         = (db, [Event.voice_stage_full (userDest target)]))
    ∧ (speakerCount db room_id < MAX_STAGE →
       (∃ p ∈ db.participants, vpMatch room_id target p = true) →
       (∃ p ∈ (sio_voice_stage_decision db room_id target true).1.participants,
           p.room_id = room_id ∧ p.user_id = target ∧ p.role = "speaker")
       ∧ (sio_voice_stage_decision db room_id target true).2
           = [Event.voice_stage_granted target (voiceDest room_id)]) := by
  constructor
  · intro hfull
    unfold sio_voice_stage_decision
    rw [if_pos rfl, if_pos hfull]
  · intro hcap hmem
    have hred : sio_voice_stage_decision db room_id target true
        = ({ db with participants :=
               setRoleFirst room_id target "speaker" db.participants },
           [Event.voice_stage_granted target (voiceDest room_id)]) := by
      unfold sio_voice_stage_decision
      rw [if_pos rfl, if_neg (Nat.not_le.mpr hcap)]
    rw [hred]
    exact ⟨setRoleFirst_mem room_id target "speaker" db.participants hmem, rfl⟩

/-- A concrete state: room 1 holds ten speakers plus listener 11. -/
def dbFull : DB :=
  { users := [], coins := fun _ => 1000, messages := [], unlocks := [],
    participants :=
      (List.range 10).map
        (fun i => { room_id := 1, user_id := i + 1, role := "speaker" })
        ++ [{ room_id := 1, user_id := 11, role := "listener" }],
    coinTxs := [], rooms := [] }

/-- A concrete state: room 1 holds a single listener, user 5. -/
def dbGrant : DB :=
  { users := [], coins := fun _ => 1000, messages := [], unlocks := [],
    participants := [{ room_id := 1, user_id := 5, role := "listener" }],
    coinTxs := [], rooms := [] }

/-- Witness for C2: accepting listener 11 in the full room emits
`voice_stage_full` and changes nothing; accepting listener 5 in the
near-empty room yields a speaker row for user 5. -/
theorem stage_decision_cap_witness :
    MAX_STAGE ≤ speakerCount dbFull 1 ∧
      sio_voice_stage_decision dbFull 1 11 true
        = (dbFull, [Event.voice_stage_full (userDest 11)]) ∧
      (∃ p ∈ (sio_voice_stage_decision dbGrant 1 5 true).1.participants,
          p.room_id = 1 ∧ p.user_id = 5 ∧ p.role = "speaker") :=
  ⟨by decide,
   (stage_decision_cap dbFull 1 11).1 (by decide),
   ((stage_decision_cap dbGrant 1 5).2 (by decide) (by decide)).1⟩

/-! Claim C4: successful transfer upserts a single unlock -/

/-- Refreshing the first matching row leaves exactly the single matching
row with the new expiry, when at most one row matched before. -/
theorem refreshFirst_pair (now p q : Nat) :
    ∀ l : List DMUnlockRow, (l.find? (uMatch p q)).isSome →
      (pairUnlocks l p q).length ≤ 1 →
      pairUnlocks (refreshFirst now p q l) p q
        = [{ user_id := p, target_id := q,
             expires_at := some (now + thirtyDays) }]
  | [], h, _ => by simp [List.find?] at h
  | u :: us, h, hone => by
      by_cases hu : uMatch p q u = true
      · have hus : us.filter (uMatch p q) = [] := by
          unfold pairUnlocks at hone
          rw [List.filter_cons, if_pos hu] at hone
          exact List.eq_nil_of_length_eq_zero (by simpa using hone)
        have hup : u.user_id = p ∧ u.target_id = q := by
          unfold uMatch at hu
          simpa using hu
        have hnew : uMatch p q { u with expires_at := some (now + thirtyDays) }
            = true := by
          unfold uMatch
          simp [hup.1, hup.2]
        unfold refreshFirst pairUnlocks
        rw [if_pos hu, List.filter_cons, if_pos hnew, hus]
        cases u with
        | mk a b c =>
            simp at hup
            rw [hup.1, hup.2]
      · have hfind : (us.find? (uMatch p q)).isSome := by
          rwa [List.find?_cons_of_neg us hu] at h
        have hone2 : (pairUnlocks us p q).length ≤ 1 := by
          unfold pairUnlocks at hone ⊢
          rw [List.filter_cons, if_neg hu] at hone
          exact hone
        have ih := refreshFirst_pair now p q us hfind hone2
        unfold refreshFirst pairUnlocks
        rw [if_neg hu, List.filter_cons, if_neg hu]
        unfold pairUnlocks at ih
        exact ih

/-- The unlock upsert yields exactly one row for the pair, carrying the
fresh expiry, under the at-most-one-row-per-pair invariant. -/
theorem pairUnlocks_upsert (now p q : Nat) (l : List DMUnlockRow)
    (hone : (pairUnlocks l p q).length ≤ 1) :
    pairUnlocks (upsertUnlock now l p q) p q
      = [{ user_id := p, target_id := q,
           expires_at := some (now + thirtyDays) }] := by
  unfold upsertUnlock
  by_cases hf : (l.find? (uMatch p q)).isSome
  · rw [if_pos hf]
    exact refreshFirst_pair now p q l hf hone
  · rw [if_neg hf]
    have hnone : l.find? (uMatch p q) = none := by
      cases hx : l.find? (uMatch p q) with
      | none => rfl
      | some u => rw [hx] at hf; simp at hf
    have hnil : l.filter (uMatch p q) = [] := by
      rw [List.filter_eq_nil_iff]
      exact List.find?_eq_none.mp hnone
    unfold pairUnlocks
    rw [List.filter_append, hnil, List.nil_append]
    simp [uMatch]

/-- Reduction of `sio_send_coins` on its success path: the sequential
debit/credit, the appended `CoinTransaction`, the unlock upsert, and the
two `coins_update` pushes. -/
theorem sio_send_coins_success (now : Nat) (db : DB) (payer payee : Nat)
    (amount : Int) (hpos : 0 < amount) (hfunds : amount ≤ db.coins payer)
    (hex : db.users.contains payee = true) :
    sio_send_coins now db payer payee amount
      = ({ users := db.users,
           coins := fun u =>
             if u = payee then
               (if u = payer then db.coins u - amount else db.coins u) + amount
             else (if u = payer then db.coins u - amount else db.coins u),
           messages := db.messages,
           unlocks := upsertUnlock now db.unlocks payer payee,
           participants := db.participants,
           coinTxs := db.coinTxs
             ++ [{ from_id := payer, to_id := payee, amount := amount,
                   note := "gift" }],
           rooms := db.rooms },
         [Event.coins_update payer
            (if payer = payee then
               (if payer = payer then db.coins payer - amount
                else db.coins payer) + amount
             else (if payer = payer then db.coins payer - amount
                   else db.coins payer))
            (userDest payer),
          Event.coins_update payee
            (if payee = payee then
               (if payee = payer then db.coins payee - amount
                else db.coins payee) + amount
             else (if payee = payer then db.coins payee - amount
                   else db.coins payee))
            (userDest payee)]) := by
  unfold sio_send_coins
  rw [if_neg (not_le.mpr hpos), if_neg (not_lt.mpr hfunds),
      if_neg (by simpa using hex)]

/-- C4: a successful transfer debits the payer and credits the payee
by the amount, appends exactly one `CoinTransaction`, and leaves exactly
one `DMUnlock` row for the (payer, payee) pair, with expiry
`now + 30 days` — created if absent, refreshed in place if present.
Consequently a second successful transfer between the same pair again
leaves exactly one unlock row (with the newer expiry), never two. -/
theorem coin_transfer_upsert (now : Nat) (db : DB) (payer payee : Nat)
    (amount : Int) (hpos : 0 < amount) (hfunds : amount ≤ db.coins payer)
    (hex : db.users.contains payee = true) (hne : payer ≠ payee)
    (hone : (pairUnlocks db.unlocks payer payee).length ≤ 1) :
    ((sio_send_coins now db payer payee amount).1.coins payer
        = db.coins payer - amount)
    ∧ ((sio_send_coins now db payer payee amount).1.coins payee
        = db.coins payee + amount)
    ∧ ((sio_send_coins now db payer payee amount).1.coinTxs
        = db.coinTxs ++ [{ from_id := payer, to_id := payee,
                           amount := amount, note := "gift" }])
    ∧ (pairUnlocks (sio_send_coins now db payer payee amount).1.unlocks
         payer payee
        = [{ user_id := payer, target_id := payee,
             expires_at := some (now + thirtyDays) }])
    ∧ (∀ now2 amount2, 0 < amount2 →
        amount2 ≤ (sio_send_coins now db payer payee amount).1.coins payer →
        pairUnlocks
          (sio_send_coins now2 (sio_send_coins now db payer payee amount).1
              payer payee amount2).1.unlocks payer payee
          = [{ user_id := payer, target_id := payee,
               expires_at := some (now2 + thirtyDays) }]) := by
  have heq := sio_send_coins_success now db payer payee amount hpos hfunds hex
  refine ⟨?_, ?_, ?_, ?_, ?_⟩
  · rw [heq]
    simp [hne]
  · rw [heq]
    simp [Ne.symm hne]
  · rw [heq]
  · rw [heq]
    exact pairUnlocks_upsert now payer payee db.unlocks hone
  · intro now2 amount2 hpos2 hle2
    have hex2 : (sio_send_coins now db payer payee amount).1.users.contains
        payee = true := by
      rw [heq]
      exact hex
    have hu1 : (sio_send_coins now db payer payee amount).1.unlocks
        = upsertUnlock now db.unlocks payer payee := by
      rw [heq]
    have honu : (pairUnlocks (sio_send_coins now db payer payee amount).1.unlocks
        payer payee).length ≤ 1 := by
      rw [hu1, pairUnlocks_upsert now payer payee db.unlocks hone]
      simp
    have heq2 := sio_send_coins_success now2
      (sio_send_coins now db payer payee amount).1 payer payee amount2
      hpos2 hle2 hex2
    rw [heq2]
    exact pairUnlocks_upsert now2 payer payee _ honu

/-- Witness for C4: user 1 (1000 coins) sends 10 coins to user 2 at time
100; exactly one unlock row for (1, 2) results, expiring 30 days later. -/
theorem coin_transfer_upsert_witness :
    (0 : Int) < 10 ∧ (10 : Int) ≤ dbEx.coins 1
    ∧ dbEx.users.contains 2 = true ∧ (1 : Nat) ≠ 2
    ∧ (pairUnlocks dbEx.unlocks 1 2).length ≤ 1
    ∧ pairUnlocks (sio_send_coins 100 dbEx 1 2 10).1.unlocks 1 2
        = [{ user_id := 1, target_id := 2,
             expires_at := some (100 + thirtyDays) }] :=
  ⟨by decide, by decide, by decide, by decide, by decide,
   (coin_transfer_upsert 100 dbEx 1 2 10 (by decide) (by decide)
       (by decide) (by decide) (by decide)).2.2.2.1⟩

/-! Claim C9: room creation inserts the creator as host -/

/-- C9: creating a room also inserts a `VoiceParticipant` row for
the creator with role `"host"` in the new room: when no pre-existing
participant row carries the fresh room id, the freshly created room has
exactly one participant, the creator as host. -/
theorem create_room_host (db : DB) (creator : Nat) (name : Option String)
    (hfresh : ∀ p ∈ db.participants, p.room_id ≠ db.rooms.length + 1) :
    (api_create_room db creator name).2 = db.rooms.length + 1
    ∧ (api_create_room db creator name).1.participants.filter
        (fun p => p.room_id == db.rooms.length + 1)
      = [{ room_id := db.rooms.length + 1, user_id := creator,
           role := "host" }] := by
  refine ⟨rfl, ?_⟩
  show (db.participants
        ++ [({ room_id := db.rooms.length + 1, user_id := creator,
               role := "host" } : VoiceParticipantRow)]).filter
      (fun p => p.room_id == db.rooms.length + 1)
      = [{ room_id := db.rooms.length + 1, user_id := creator,
           role := "host" }]
  rw [List.filter_append]
  have h1 : db.participants.filter
      (fun p => p.room_id == db.rooms.length + 1) = [] := by
    rw [List.filter_eq_nil_iff]
    intro a ha
    simpa using hfresh a ha
  rw [h1, List.nil_append]
  simp

/-- A concrete empty state for the C9 witness. -/
def dbFresh : DB :=
  { users := [4], coins := fun _ => 1000, messages := [], unlocks := [],
    participants := [], coinTxs := [], rooms := [] }

/-- Witness for C9: user 4 creates a room; the new room's id is 1 and it
holds exactly the host row for user 4. -/
theorem create_room_host_witness :
    (∀ p ∈ dbFresh.participants, p.room_id ≠ dbFresh.rooms.length + 1)
    ∧ (api_create_room dbFresh 4 (some "My Room")).2 = 1
    ∧ (api_create_room dbFresh 4 (some "My Room")).1.participants.filter
        (fun p => p.room_id == dbFresh.rooms.length + 1)
      = [{ room_id := 1, user_id := 4, role := "host" }] :=
  ⟨by decide,
   (create_room_host dbFresh 4 (some "My Room") (by decide)).1,
   (create_room_host dbFresh 4 (some "My Room") (by decide)).2⟩

/-! Claim C7: message history -/

/-- C7: a history fetch with neither a truthy `room` nor a truthy
`recipient_id` fails with the error response; with a room (resp. a
recipient) the result is a sorted-ascending-by-creation-time list of at
most 100 entries drawn from the matching messages, and it is exactly
the matching messages (up to order) whenever at most 100 match. -/
theorem api_messages_spec (db : DB) (me : Nat) (room : Option String)
    (rid : Option Nat) :
    (truthyStr room = false → truthyNat rid = false →
       api_messages db me room rid
         = Except.error "room or recipient_id required")
    ∧ (∀ s : String, room = some s → s ≠ "" →
        ∃ res, api_messages db me room rid = Except.ok res
          ∧ List.Sorted msgLe res
          ∧ res.length ≤ 100
          ∧ (∀ m ∈ res, m ∈ roomFilter db s)
          ∧ ((roomFilter db s).length ≤ 100 → res.Perm (roomFilter db s)))
    ∧ (truthyStr room = false → ∀ n : Nat, rid = some n → n ≠ 0 →
        ∃ res, api_messages db me room rid = Except.ok res
          ∧ List.Sorted msgLe res
          ∧ res.length ≤ 100
          ∧ (∀ m ∈ res, m ∈ dmFilter db me n)
          ∧ ((dmFilter db me n).length ≤ 100 →
               res.Perm (dmFilter db me n))) := by
  refine ⟨?_, ?_, ?_⟩
  · intro h1 h2
    unfold api_messages
    rw [if_neg (by simp [h1]), if_neg (by simp [h2])]
  · intro s hs hne
    subst hs
    have ht : truthyStr (some s) = true := by simpa [truthyStr] using hne
    unfold api_messages
    rw [if_pos ht]
    simp only [Option.getD_some]
    refine ⟨_, rfl, ?_, List.length_take_le 100 _, ?_, ?_⟩
    · exact List.Pairwise.sublist (List.take_sublist 100 _)
        (List.sorted_insertionSort msgLe (roomFilter db s))
    · intro m hm
      have hmem := List.take_subset 100 _ hm
      rwa [List.mem_insertionSort] at hmem
    · intro hlen
      have hl2 : (List.insertionSort msgLe (roomFilter db s)).length ≤ 100 := by
        rw [List.length_insertionSort]
        exact hlen
      rw [List.take_of_length_le hl2]
      exact List.perm_insertionSort msgLe _
  · intro h1 n hn hne
    subst hn
    have ht : truthyNat (some n) = true := by simpa [truthyNat] using hne
    unfold api_messages
    rw [if_neg (by simp [h1]), if_pos ht]
    simp only [Option.getD_some]
    refine ⟨_, rfl, ?_, List.length_take_le 100 _, ?_, ?_⟩
    · exact List.Pairwise.sublist (List.take_sublist 100 _)
        (List.sorted_insertionSort msgLe (dmFilter db me n))
    · intro m hm
      have hmem := List.take_subset 100 _ hm
      rwa [List.mem_insertionSort] at hmem
    · intro hlen
      have hl2 : (List.insertionSort msgLe (dmFilter db me n)).length ≤ 100 := by
        rw [List.length_insertionSort]
        exact hlen
      rw [List.take_of_length_le hl2]
      exact List.perm_insertionSort msgLe _

/-- A concrete state for the C7 witness: one lobby message and two
private messages between users 1 and 2. -/
def dbHist : DB :=
  { users := [1, 2], coins := fun _ => 1000,
    messages :=
      [{ id := 1, body := "m1", created_at := 5, sender_id := 1,
         recipient_id := none, room := some "lobby" },
       { id := 2, body := "m2", created_at := 2, sender_id := 1,
         recipient_id := some 2, room := none },
       { id := 3, body := "m3", created_at := 1, sender_id := 2,
         recipient_id := some 1, room := none }],
    unlocks := [], participants := [], coinTxs := [], rooms := [] }

/-- Witness for C7: neither filter errors out; the room fetch and the
private fetch each return their sorted, capped matching messages. -/
theorem api_messages_spec_witness :
    api_messages dbHist 1 none none
      = Except.error "room or recipient_id required"
    ∧ (∃ res, api_messages dbHist 1 (some "lobby") none = Except.ok res
        ∧ List.Sorted msgLe res ∧ res.length ≤ 100
        ∧ (∀ m ∈ res, m ∈ roomFilter dbHist "lobby")
        ∧ ((roomFilter dbHist "lobby").length ≤ 100 →
             res.Perm (roomFilter dbHist "lobby")))
    ∧ (∃ res, api_messages dbHist 1 none (some 2) = Except.ok res
        ∧ List.Sorted msgLe res ∧ res.length ≤ 100
        ∧ (∀ m ∈ res, m ∈ dmFilter dbHist 1 2)
        ∧ ((dmFilter dbHist 1 2).length ≤ 100 →
             res.Perm (dmFilter dbHist 1 2))) :=
  ⟨(api_messages_spec dbHist 1 none none).1 rfl rfl,
   (api_messages_spec dbHist 1 (some "lobby") none).2.1 "lobby" rfl
     (by decide),
   (api_messages_spec dbHist 1 none (some 2)).2.2 rfl 2 rfl (by decide)⟩
